import Mathlib

/-!
Verification development for the pathfinding3D library (3D grid pathfinding).

The Python sources are shallowly embedded: mutable objects become explicit
state values, floats become rationals (`ℚ`), dicts become association lists,
`heapq` heaps become lists whose pop extracts the least tuple, and fallible
operations (dict `KeyError`, popping an empty heap, raised exceptions)
return `Option`/`Except`.  Each definition mirrors one Python function of
`src/pathfinding3d`; deviations forced by the embedding are noted in the
doc comments.
-/

namespace Pathfinding3D

/-! ## Heap embedding (`core/heap.py`)

`SimpleHeap` stores tuples `(node.f, heap_order, *node.identifier)` in a
`heapq` binary heap.  We model the heap by the list of its entries; popping
extracts the entry that is least in the Python tuple (lexicographic) order,
which is what `heapq.heappop` returns.  A single-grid node identifier is the
coordinate triple `(x, y, z)`. -/

/-- Single-grid node identifier `(x, y, z)` (`GridNode.identifier`). -/
abbrev HeapIdent := ℤ × ℤ × ℤ

/-- Heap entry `(node.f, heap_order, *node.identifier)` as produced by
`SimpleHeap._get_node_tuple` for a `Grid`. -/
abbrev Entry := ℚ × ℕ × HeapIdent

/-- Lexicographic strict order on identifiers, mirroring Python tuple `<`. -/
def identLt (a b : HeapIdent) : Bool :=
  a.1 < b.1 || (a.1 = b.1 && (a.2.1 < b.2.1 || (a.2.1 = b.2.1 && a.2.2 < b.2.2)))

/-- Lexicographic strict order on heap entries, mirroring Python tuple `<`
on `(f, heap_order, x, y, z)`. -/
def entryLt (a b : Entry) : Bool :=
  a.1 < b.1 || (a.1 = b.1 && (a.2.1 < b.2.1 || (a.2.1 = b.2.1 && identLt a.2.2 b.2.2)))

/-- The least entry of a list of heap entries (what `heapq.heappop` would
return), `none` for the empty heap (`heappop` raises `IndexError`). -/
def minEntry : List Entry → Option Entry
  | [] => none
  | e :: es => some (es.foldl (fun m e2 => if entryLt e2 m then e2 else m) e)

/-- State of `SimpleHeap` (`core/heap.py`): the open list of physical heap
entries, the tombstone set `removed_node_tuples` (modelled as a list with
membership as the set test), the `heap_order` dict from identifier to last
insertion sequence number (association list, most recent binding first), and
the push counter `number_pushed`. -/
structure SimpleHeap where
  open_list : List Entry
  removed_node_tuples : List Entry
  heap_order : List (HeapIdent × ℕ)
  number_pushed : ℕ
  deriving Repr, DecidableEq

/-- `SimpleHeap.__init__`: the initial node is stored with heap order `0`;
`removed_node_tuples` starts empty, `heap_order` starts as the empty dict
(the initial node is *not* recorded in it), `number_pushed` starts at `0`. -/
def initHeap (f : ℚ) (ident : HeapIdent) : SimpleHeap :=
  { open_list := [(f, 0, ident)]
    removed_node_tuples := []
    heap_order := []
    number_pushed := 0 }

/-- `SimpleHeap.push_node`: increment `number_pushed`, build the tuple
`(node.f, number_pushed, *node.identifier)`, record the sequence number in
`heap_order[node.identifier]`, and push the tuple onto the heap. -/
def pushNode (h : SimpleHeap) (node_f : ℚ) (ident : HeapIdent) : SimpleHeap :=
  let n := h.number_pushed + 1
  { open_list := (node_f, n, ident) :: h.open_list
    removed_node_tuples := h.removed_node_tuples
    heap_order := (ident, n) :: h.heap_order
    number_pushed := n }

/-- `SimpleHeap.remove_node(node, old_f)`: look up the node's last insertion
sequence number (`KeyError`, i.e. `none`, when absent) and add the tuple
built by `_get_node_tuple(node, heap_order)` to `removed_node_tuples`.
Note that the source builds this tuple from the node's *current* `node.f`
(`node_f` here); the `old_f` argument is never used. -/
def removeNode (h : SimpleHeap) (node_f : ℚ) (ident : HeapIdent) (old_f : ℚ) :
    Option SimpleHeap :=
  match h.heap_order.lookup ident with
  | none => none
  | some k => some { h with removed_node_tuples := (node_f, k, ident) :: h.removed_node_tuples }

/-- Loop body of `SimpleHeap.pop_node`: repeatedly pop the least entry,
skipping entries found in `removed_node_tuples`.  The fuel is the length of
the list, which bounds the number of pops. -/
def popNodeAux (removed : List Entry) : ℕ → List Entry → Option (Entry × List Entry)
  | 0, _ => none
  | fuel + 1, l =>
    match minEntry l with
    | none => none
    | some e =>
      let rest := l.erase e
      if e ∈ removed then popNodeAux removed fuel rest else some (e, rest)

/-- `SimpleHeap.pop_node`: pop entries until one that is not tombstoned is
found; return that node's identifier together with the updated heap
(`none` models the `IndexError` of popping an exhausted heap). -/
def popNode (h : SimpleHeap) : Option (HeapIdent × SimpleHeap) :=
  match popNodeAux h.removed_node_tuples h.open_list.length h.open_list with
  | none => none
  | some (e, rest) => some (e.2.2, { h with open_list := rest })

/-- The *active* (non-tombstoned) physical heap entries carrying a given
node identifier. -/
def activeEntries (h : SimpleHeap) (ident : HeapIdent) : List Entry :=
  h.open_list.filter fun e => e.2.2 == ident && !(h.removed_node_tuples.contains e)

/-- Pop three nodes in a row, returning their identifiers. -/
def popThree (h : SimpleHeap) : Option (HeapIdent × HeapIdent × HeapIdent) :=
  match popNode h with
  | none => none
  | some (i1, h1) =>
    match popNode h1 with
    | none => none
    | some (i2, h2) =>
      match popNode h2 with
      | none => none
      | some (i3, _) => some (i1, i2, i3)

/-! ### Decrease-key scenario exercising the heap

The decrease-key pattern of `ThetaStarFinder.process_node`: a node is
pushed, the caller later lowers its cost (updating `node.f` from `5` to `3`
*before* calling `remove_node(node, old_f)`), tombstones the old entry and
pushes a fresh one. -/

/-- The start node `(0,0,0)` (initial heap entry, `f = 0`). -/
def nodeA : HeapIdent := (0, 0, 0)

/-- A neighbor node `(1,1,1)` that undergoes a decrease-key. -/
def nodeB : HeapIdent := (1, 1, 1)

/-- Heap right after `SimpleHeap(start, grid)`. -/
def heapScenario0 : SimpleHeap := initHeap 0 nodeA

/-- After `push_node(B)` with `B.f = 5`. -/
def heapScenario1 : SimpleHeap := pushNode heapScenario0 5 nodeB

/-- After the caller sets `B.f = 3` and calls `remove_node(B, old_f := 5)`. -/
def heapScenario2 : Option SimpleHeap := removeNode heapScenario1 3 nodeB 5

/-- After the subsequent `push_node(B)` with the new `B.f = 3`. -/
def heapScenario3 : Option SimpleHeap := heapScenario2.map fun h => pushNode h 3 nodeB

/-- C1: the claim says `remove_node(node, oldCost)` records the tombstone
`(oldCost, knownSequence)` so that the stale physical entry carrying
`(oldCost, knownSequence)` is discarded when popped.  Evaluating the code on
the decrease-key scenario: the tombstone recorded is `(3, 1, B)`, built from
the node's current `f = 3`, and the tuple `(5, 1, B)` of the stale physical
entry is *not* in the tombstone set, so the stale entry is not recognized. -/
theorem remove_node_tombstone_ignores_old_cost :
    heapScenario2.map (fun h => h.removed_node_tuples) = some [((3 : ℚ), 1, nodeB)] ∧
    heapScenario2.map (fun h => decide (((5 : ℚ), 1, nodeB) ∈ h.removed_node_tuples)) =
      some false := by
  decide

/-- C2: the claim says at most one active heap entry per node identifier
exists under the decrease-key pattern and that `pop_node` never returns a
node via a `remove_node`'d entry.  Evaluating the code on the decrease-key
scenario: after `remove_node`+`push_node`, *two* active (non-tombstoned)
entries carry identifier `B`, and the third pop returns `B` a second time,
via the stale `(5, 1, B)` entry that `remove_node` was asked to cancel. -/
theorem heap_two_active_entries_for_one_node :
    heapScenario3.map (fun h => (activeEntries h nodeB).length) = some 2 ∧
    heapScenario3.map (fun h => popThree h) = some (some (nodeA, nodeB, nodeB)) := by
  decide

/-! ## Node embedding (`core/node.py`)

`GridNode` is a dataclass carrying identity fields (`x, y, z, walkable,
weight, grid_id, connections`) plus mutable search-state slots
(`h, g, f, opened, closed, parent, retain_count, tested`).  The `parent`
back-reference is modelled as an optional node identifier (a non-owning
key, exactly as spec §9 prescribes for reimplementation); `connections`
holds the connected nodes themselves, as in the source. -/

/-- `GridNode.identifier`: `(x, y, z)` when `grid_id is None`, else
`(x, y, z, grid_id)`; modelled uniformly as a 4-tuple with optional id. -/
abbrev NodeIdent := ℤ × ℤ × ℤ × Option ℤ

/-- A grid node (`core/node.py`, `Node` + `GridNode`).  `opened` is the
Python tri-state int (0 unopened, `BY_START = 1`, `BY_END = 2`). -/
structure GridNode where
  x : ℤ
  y : ℤ
  z : ℤ
  walkable : Bool
  weight : ℚ
  grid_id : Option ℤ
  connections : List GridNode
  h : ℚ
  g : ℚ
  f : ℚ
  opened : ℕ
  closed : Bool
  parent : Option NodeIdent
  retain_count : ℕ
  tested : Bool

/-- `GridNode(x=.., y=.., z=.., walkable=.., weight=.., grid_id=..)`:
dataclass construction; `__post_init__` runs `cleanup()`, so the search
state starts at the initial values and `connections` starts as `None`
(modelled as the empty list). -/
def GridNode.make (x y z : ℤ) (walkable : Bool) (weight : ℚ) (grid_id : Option ℤ) :
    GridNode :=
  { x := x, y := y, z := z, walkable := walkable, weight := weight, grid_id := grid_id
    connections := [], h := 0, g := 0, f := 0, opened := 0, closed := false
    parent := none, retain_count := 0, tested := false }

instance : Inhabited GridNode := ⟨GridNode.make 0 0 0 true 1 none⟩

/-- `Node.cleanup`: reset the search-state fields `h, g, f, opened, closed,
parent, retain_count, tested` to `0.0, 0.0, 0.0, 0, False, None, 0, False`. -/
def GridNode.cleanup (n : GridNode) : GridNode :=
  { n with h := 0, g := 0, f := 0, opened := 0, closed := false
           parent := none, retain_count := 0, tested := false }

/-- `GridNode.identifier` as set by `__post_init__` from `x, y, z, grid_id`. -/
def GridNode.identifier (n : GridNode) : NodeIdent :=
  (n.x, n.y, n.z, n.grid_id)

/-! ## Diagonal movement policies

Modelled from the spec: `core/diagonal_movement.py` is absent from `src/`
(it is imported by `core/grid.py` and every finder).  Per spec §6 the
diagonal-movement policy is one of `Never`, `OnlyWhenNoObstacle`,
`IfAtMostOneObstacle`, `Always`; `core/grid.py` branches on these four
values. -/

/-- Modelled from the spec: the four diagonal-movement policies of §6. -/
inductive DiagonalMovement
  | never
  | only_when_no_obstacle
  | if_at_most_one_obstacle
  | always
  deriving DecidableEq, Repr

/-! ## Grid embedding (`core/grid.py`) -/

/-- `build_nodes`: create the dense `width × height × depth` array of nodes.
The input `matrix` of weights is modelled as an optional function of the
indices (the source reads `matrix[x][y][z]` and converts with `int`); with
no matrix the weight is `1`.  A node is walkable iff `weight <= 0` when
`inverse` else `weight >= 1`. -/
def build_nodes (width height depth : ℕ) (matrix : Option (ℕ → ℕ → ℕ → ℤ))
    (inverse : Bool) (grid_id : Option ℤ) : List (List (List GridNode)) :=
  (List.range width).map fun x =>
    (List.range height).map fun y =>
      (List.range depth).map fun z =>
        let weight : ℤ :=
          match matrix with
          | some m => m x y z
          | none => 1
        let walkable : Bool := if inverse then weight ≤ 0 else 1 ≤ weight
        GridNode.make x y z walkable (weight : ℚ) grid_id

/-- A grid (`core/grid.py`): dimensions plus the owned 3D node array. -/
structure Grid where
  width : ℕ
  height : ℕ
  depth : ℕ
  nodes : List (List (List GridNode))

/-- `Grid.__init__` (with explicit dimensions, or dimensions taken from the
matrix): build the node array when `is_valid_grid()` holds, else `[[[]]]`. -/
def Grid.make (width height depth : ℕ) (matrix : Option (ℕ → ℕ → ℕ → ℤ))
    (inverse : Bool) (grid_id : Option ℤ) : Grid :=
  { width := width, height := height, depth := depth
    nodes :=
      if 0 < width ∧ 0 < height ∧ 0 < depth then
        build_nodes width height depth matrix inverse grid_id
      else [[[]]] }

/-- `Grid.inside`: position is within `[0,width) × [0,height) × [0,depth)`. -/
def Grid.inside (grid : Grid) (x y z : ℤ) : Bool :=
  0 ≤ x && x < (grid.width : ℤ) && 0 ≤ y && y < (grid.height : ℤ) &&
    0 ≤ z && z < (grid.depth : ℤ)

/-- Raw indexing `self.nodes[x][y][z]`.  The source only evaluates this on
in-bounds coordinates (guarded by `inside`/`walkable`); out of bounds we
return the default node, where Python would raise or wrap around. -/
def Grid.nodeAt (grid : Grid) (x y z : ℤ) : GridNode :=
  ((grid.nodes.getD x.toNat []).getD y.toNat []).getD z.toNat default

/-- `Grid.node`: the node at a position, `None` when outside the map. -/
def Grid.node? (grid : Grid) (x y z : ℤ) : Option GridNode :=
  if grid.inside x y z then some (grid.nodeAt x y z) else none

/-- `Grid.walkable`: inside the map and the node's `walkable` flag is set. -/
def Grid.walkable (grid : Grid) (x y z : ℤ) : Bool :=
  grid.inside x y z && (grid.nodeAt x y z).walkable

/-- `Grid.cleanup`: run `cleanup()` on every owned node. -/
def Grid.cleanup (grid : Grid) : Grid :=
  { grid with
      nodes := grid.nodes.map fun xNodes => xNodes.map fun yNodes =>
        yNodes.map GridNode.cleanup }

/-- Policy gate for the twelve edge diagonals (`core/grid.py` lines
321-356): both contributing face flags for `only_when_no_obstacle`, at
least one for `if_at_most_one_obstacle`, unconditional for `always`.
The flags stay at their `False` initialisation for `never` (that branch
returns before using them). -/
def edgeGate (dm : DiagonalMovement) (a b : Bool) : Bool :=
  match dm with
  | .never => false
  | .only_when_no_obstacle => a && b
  | .if_at_most_one_obstacle => a || b
  | .always => true

/-- Policy gate for the eight corner diagonals (`core/grid.py` lines
431-455): all six contributing flags for `only_when_no_obstacle`, at least
five of six (`sum([...]) >= 5`) for `if_at_most_one_obstacle`,
unconditional for `always`. -/
def cornerGate (dm : DiagonalMovement) (a b c d e f : Bool) : Bool :=
  match dm with
  | .never => false
  | .only_when_no_obstacle => a && b && c && d && e && f
  | .if_at_most_one_obstacle => decide (5 ≤ List.countP (fun x => x) [a, b, c, d, e, f])
  | .always => true

/-- `Grid.neighbors` (`core/grid.py` lines 253-489).  The six face
neighbors are appended first (in source order `-y, +x, +y, -x, +z, -z`),
then the node's manual `connections` (extending by the empty list when
`node.connections` is falsy is a no-op, matching the `if`), then — unless
the policy is `never` — the twelve edge diagonals and eight corner
diagonals.  An edge diagonal's gating flag is cleared when its target cell
is not walkable (the `else: flag = False` branches), so the primed flags
below are the post-check values consumed by the corner gates. -/
def Grid.neighbors (grid : Grid) (node : GridNode) (dm : DiagonalMovement) :
    List GridNode :=
  let x := node.x
  let y := node.y
  let z := node.z
  let cs0 := grid.walkable x (y - 1) z
  let cs1 := grid.walkable (x + 1) y z
  let cs2 := grid.walkable x (y + 1) z
  let cs3 := grid.walkable (x - 1) y z
  let ut := grid.walkable x y (z + 1)
  let lb := grid.walkable x y (z - 1)
  let base :=
    (if cs0 then [grid.nodeAt x (y - 1) z] else []) ++
    (if cs1 then [grid.nodeAt (x + 1) y z] else []) ++
    (if cs2 then [grid.nodeAt x (y + 1) z] else []) ++
    (if cs3 then [grid.nodeAt (x - 1) y z] else []) ++
    (if ut then [grid.nodeAt x y (z + 1)] else []) ++
    (if lb then [grid.nodeAt x y (z - 1)] else []) ++
    node.connections
  if dm = DiagonalMovement.never then base
  else
    let cd0 := edgeGate dm cs0 cs1
    let cd1 := edgeGate dm cs1 cs2
    let cd2 := edgeGate dm cs2 cs3
    let cd3 := edgeGate dm cs3 cs0
    let us0 := edgeGate dm cs0 ut
    let us1 := edgeGate dm cs1 ut
    let us2 := edgeGate dm cs2 ut
    let us3 := edgeGate dm cs3 ut
    let ls0 := edgeGate dm cs0 lb
    let ls1 := edgeGate dm cs1 lb
    let ls2 := edgeGate dm cs2 lb
    let ls3 := edgeGate dm cs3 lb
    let cd0' := cd0 && grid.walkable (x + 1) (y - 1) z
    let cd1' := cd1 && grid.walkable (x + 1) (y + 1) z
    let cd2' := cd2 && grid.walkable (x - 1) (y + 1) z
    let cd3' := cd3 && grid.walkable (x - 1) (y - 1) z
    let us0' := us0 && grid.walkable x (y - 1) (z + 1)
    let us1' := us1 && grid.walkable (x + 1) y (z + 1)
    let us2' := us2 && grid.walkable x (y + 1) (z + 1)
    let us3' := us3 && grid.walkable (x - 1) y (z + 1)
    let ls0' := ls0 && grid.walkable x (y - 1) (z - 1)
    let ls1' := ls1 && grid.walkable (x + 1) y (z - 1)
    let ls2' := ls2 && grid.walkable x (y + 1) (z - 1)
    let ls3' := ls3 && grid.walkable (x - 1) y (z - 1)
    let edges :=
      (if cd0' then [grid.nodeAt (x + 1) (y - 1) z] else []) ++
      (if cd1' then [grid.nodeAt (x + 1) (y + 1) z] else []) ++
      (if cd2' then [grid.nodeAt (x - 1) (y + 1) z] else []) ++
      (if cd3' then [grid.nodeAt (x - 1) (y - 1) z] else []) ++
      (if us0' then [grid.nodeAt x (y - 1) (z + 1)] else []) ++
      (if us1' then [grid.nodeAt (x + 1) y (z + 1)] else []) ++
      (if us2' then [grid.nodeAt x (y + 1) (z + 1)] else []) ++
      (if us3' then [grid.nodeAt (x - 1) y (z + 1)] else []) ++
      (if ls0' then [grid.nodeAt x (y - 1) (z - 1)] else []) ++
      (if ls1' then [grid.nodeAt (x + 1) y (z - 1)] else []) ++
      (if ls2' then [grid.nodeAt x (y + 1) (z - 1)] else []) ++
      (if ls3' then [grid.nodeAt (x - 1) y (z - 1)] else [])
    let ud0 := cornerGate dm cs0 cd0' cs1 us0' us1' ut
    let ud1 := cornerGate dm cs1 cd1' cs2 us1' us2' ut
    let ud2 := cornerGate dm cs2 cd2' cs3 us2' us3' ut
    let ud3 := cornerGate dm cs3 cd3' cs0 us3' us0' ut
    let ld0 := cornerGate dm cs0 cd0' cs1 ls0' ls1' lb
    let ld1 := cornerGate dm cs1 cd1' cs2 ls1' ls2' lb
    let ld2 := cornerGate dm cs2 cd2' cs3 ls2' ls3' lb
    let ld3 := cornerGate dm cs3 cd3' cs0 ls3' ls0' lb
    let corners :=
      (if ud0 && grid.walkable (x + 1) (y - 1) (z + 1) then
        [grid.nodeAt (x + 1) (y - 1) (z + 1)] else []) ++
      (if ud1 && grid.walkable (x + 1) (y + 1) (z + 1) then
        [grid.nodeAt (x + 1) (y + 1) (z + 1)] else []) ++
      (if ud2 && grid.walkable (x - 1) (y + 1) (z + 1) then
        [grid.nodeAt (x - 1) (y + 1) (z + 1)] else []) ++
      (if ud3 && grid.walkable (x - 1) (y - 1) (z + 1) then
        [grid.nodeAt (x - 1) (y - 1) (z + 1)] else []) ++
      (if ld0 && grid.walkable (x + 1) (y - 1) (z - 1) then
        [grid.nodeAt (x + 1) (y - 1) (z - 1)] else []) ++
      (if ld1 && grid.walkable (x + 1) (y + 1) (z - 1) then
        [grid.nodeAt (x + 1) (y + 1) (z - 1)] else []) ++
      (if ld2 && grid.walkable (x - 1) (y + 1) (z - 1) then
        [grid.nodeAt (x - 1) (y + 1) (z - 1)] else []) ++
      (if ld3 && grid.walkable (x - 1) (y - 1) (z - 1) then
        [grid.nodeAt (x - 1) (y - 1) (z - 1)] else [])
    base ++ edges ++ corners

/-- The all-walkable `n × n × n` grid `Grid(n, n, n)` (no matrix). -/
def allWalkableGrid (n : ℕ) : Grid := Grid.make n n n none false none

/-- Indexing into a list built by mapping over `List.range`. -/
theorem getD_range_map {α : Type _} (f : ℕ → α) (w i : ℕ) (hi : i < w) (d : α) :
    ((List.range w).map f).getD i d = f i := by
  rw [List.getD_eq_getElem?_getD]
  simp [List.getElem?_map, List.getElem?_range hi]

/-- In the all-walkable grid, every in-bounds cell holds the freshly built
walkable node of weight 1 at its own coordinates. -/
theorem nodeAt_allWalkable (n : ℕ) (x y z : ℤ)
    (h : 0 ≤ x ∧ x < (n : ℤ) ∧ 0 ≤ y ∧ y < (n : ℤ) ∧ 0 ≤ z ∧ z < (n : ℤ)) :
    (allWalkableGrid n).nodeAt x y z = GridNode.make x y z true 1 none := by
  obtain ⟨hx0, hx1, hy0, hy1, hz0, hz1⟩ := h
  have hn : 0 < n := by omega
  have hxn : x.toNat < n := by omega
  have hyn : y.toNat < n := by omega
  have hzn : z.toNat < n := by omega
  show ((((allWalkableGrid n).nodes.getD x.toNat []).getD y.toNat []).getD z.toNat default) = _
  have hnodes : (allWalkableGrid n).nodes = build_nodes n n n none false none := by
    simp [allWalkableGrid, Grid.make, hn]
  rw [hnodes]
  unfold build_nodes
  rw [getD_range_map _ _ _ hxn, getD_range_map _ _ _ hyn, getD_range_map _ _ _ hzn]
  simp [Int.toNat_of_nonneg hx0, Int.toNat_of_nonneg hy0, Int.toNat_of_nonneg hz0]

/-- In the all-walkable grid, every in-bounds cell is walkable. -/
theorem walkable_allWalkable (n : ℕ) (x y z : ℤ)
    (h : 0 ≤ x ∧ x < (n : ℤ) ∧ 0 ≤ y ∧ y < (n : ℤ) ∧ 0 ≤ z ∧ z < (n : ℤ)) :
    (allWalkableGrid n).walkable x y z = true := by
  have hb := h
  obtain ⟨hx0, hx1, hy0, hy1, hz0, hz1⟩ := hb
  show ((allWalkableGrid n).inside x y z && ((allWalkableGrid n).nodeAt x y z).walkable) = true
  rw [nodeAt_allWalkable n x y z h]
  simp [Grid.inside, allWalkableGrid, Grid.make, GridNode.make, hx0, hx1, hy0, hy1, hz0, hz1]

/-- C6: for an interior cell of the all-walkable `N×N×N` grid (`N ≥ 3`),
`neighbors` with policy `Always` returns exactly 26 distinct cells, and
with policy `Never` returns exactly the six face-adjacent cells
`±x, ±y, ±z` (listed in the source's deterministic order). -/
theorem neighbors_interior (n : ℕ) (x y z : ℤ) (hn : 3 ≤ n)
    (hx : 1 ≤ x ∧ x ≤ (n : ℤ) - 2) (hy : 1 ≤ y ∧ y ≤ (n : ℤ) - 2)
    (hz : 1 ≤ z ∧ z ≤ (n : ℤ) - 2) :
    (((allWalkableGrid n).neighbors ((allWalkableGrid n).nodeAt x y z)
        DiagonalMovement.always).length = 26 ∧
      ((allWalkableGrid n).neighbors ((allWalkableGrid n).nodeAt x y z)
        DiagonalMovement.always).Nodup) ∧
    ((allWalkableGrid n).neighbors ((allWalkableGrid n).nodeAt x y z)
        DiagonalMovement.never).map (fun m => (m.x, m.y, m.z)) =
      [(x, y - 1, z), (x + 1, y, z), (x, y + 1, z), (x - 1, y, z),
       (x, y, z + 1), (x, y, z - 1)] := by
  obtain ⟨hx1, hx2⟩ := hx
  obtain ⟨hy1, hy2⟩ := hy
  obtain ⟨hz1, hz2⟩ := hz
  have hnode : (allWalkableGrid n).nodeAt x y z = GridNode.make x y z true 1 none :=
    nodeAt_allWalkable n x y z (by omega)
  have w01 : (allWalkableGrid n).walkable x (y - 1) z = true :=
    walkable_allWalkable n _ _ _ (by omega)
  have w02 : (allWalkableGrid n).walkable (x + 1) y z = true :=
    walkable_allWalkable n _ _ _ (by omega)
  have w03 : (allWalkableGrid n).walkable x (y + 1) z = true :=
    walkable_allWalkable n _ _ _ (by omega)
  have w04 : (allWalkableGrid n).walkable (x - 1) y z = true :=
    walkable_allWalkable n _ _ _ (by omega)
  have w05 : (allWalkableGrid n).walkable x y (z + 1) = true :=
    walkable_allWalkable n _ _ _ (by omega)
  have w06 : (allWalkableGrid n).walkable x y (z - 1) = true :=
    walkable_allWalkable n _ _ _ (by omega)
  have w07 : (allWalkableGrid n).walkable (x + 1) (y - 1) z = true :=
    walkable_allWalkable n _ _ _ (by omega)
  have w08 : (allWalkableGrid n).walkable (x + 1) (y + 1) z = true :=
    walkable_allWalkable n _ _ _ (by omega)
  have w09 : (allWalkableGrid n).walkable (x - 1) (y + 1) z = true :=
    walkable_allWalkable n _ _ _ (by omega)
  have w10 : (allWalkableGrid n).walkable (x - 1) (y - 1) z = true :=
    walkable_allWalkable n _ _ _ (by omega)
  have w11 : (allWalkableGrid n).walkable x (y - 1) (z + 1) = true :=
    walkable_allWalkable n _ _ _ (by omega)
  have w12 : (allWalkableGrid n).walkable (x + 1) y (z + 1) = true :=
    walkable_allWalkable n _ _ _ (by omega)
  have w13 : (allWalkableGrid n).walkable x (y + 1) (z + 1) = true :=
    walkable_allWalkable n _ _ _ (by omega)
  have w14 : (allWalkableGrid n).walkable (x - 1) y (z + 1) = true :=
    walkable_allWalkable n _ _ _ (by omega)
  have w15 : (allWalkableGrid n).walkable x (y - 1) (z - 1) = true :=
    walkable_allWalkable n _ _ _ (by omega)
  have w16 : (allWalkableGrid n).walkable (x + 1) y (z - 1) = true :=
    walkable_allWalkable n _ _ _ (by omega)
  have w17 : (allWalkableGrid n).walkable x (y + 1) (z - 1) = true :=
    walkable_allWalkable n _ _ _ (by omega)
  have w18 : (allWalkableGrid n).walkable (x - 1) y (z - 1) = true :=
    walkable_allWalkable n _ _ _ (by omega)
  have w19 : (allWalkableGrid n).walkable (x + 1) (y - 1) (z + 1) = true :=
    walkable_allWalkable n _ _ _ (by omega)
  have w20 : (allWalkableGrid n).walkable (x + 1) (y + 1) (z + 1) = true :=
    walkable_allWalkable n _ _ _ (by omega)
  have w21 : (allWalkableGrid n).walkable (x - 1) (y + 1) (z + 1) = true :=
    walkable_allWalkable n _ _ _ (by omega)
  have w22 : (allWalkableGrid n).walkable (x - 1) (y - 1) (z + 1) = true :=
    walkable_allWalkable n _ _ _ (by omega)
  have w23 : (allWalkableGrid n).walkable (x + 1) (y - 1) (z - 1) = true :=
    walkable_allWalkable n _ _ _ (by omega)
  have w24 : (allWalkableGrid n).walkable (x + 1) (y + 1) (z - 1) = true :=
    walkable_allWalkable n _ _ _ (by omega)
  have w25 : (allWalkableGrid n).walkable (x - 1) (y + 1) (z - 1) = true :=
    walkable_allWalkable n _ _ _ (by omega)
  have w26 : (allWalkableGrid n).walkable (x - 1) (y - 1) (z - 1) = true :=
    walkable_allWalkable n _ _ _ (by omega)
  have hA : (allWalkableGrid n).neighbors ((allWalkableGrid n).nodeAt x y z)
      DiagonalMovement.always =
      [(allWalkableGrid n).nodeAt x (y - 1) z, (allWalkableGrid n).nodeAt (x + 1) y z,
       (allWalkableGrid n).nodeAt x (y + 1) z, (allWalkableGrid n).nodeAt (x - 1) y z,
       (allWalkableGrid n).nodeAt x y (z + 1), (allWalkableGrid n).nodeAt x y (z - 1),
       (allWalkableGrid n).nodeAt (x + 1) (y - 1) z,
       (allWalkableGrid n).nodeAt (x + 1) (y + 1) z,
       (allWalkableGrid n).nodeAt (x - 1) (y + 1) z,
       (allWalkableGrid n).nodeAt (x - 1) (y - 1) z,
       (allWalkableGrid n).nodeAt x (y - 1) (z + 1),
       (allWalkableGrid n).nodeAt (x + 1) y (z + 1),
       (allWalkableGrid n).nodeAt x (y + 1) (z + 1),
       (allWalkableGrid n).nodeAt (x - 1) y (z + 1),
       (allWalkableGrid n).nodeAt x (y - 1) (z - 1),
       (allWalkableGrid n).nodeAt (x + 1) y (z - 1),
       (allWalkableGrid n).nodeAt x (y + 1) (z - 1),
       (allWalkableGrid n).nodeAt (x - 1) y (z - 1),
       (allWalkableGrid n).nodeAt (x + 1) (y - 1) (z + 1),
       (allWalkableGrid n).nodeAt (x + 1) (y + 1) (z + 1),
       (allWalkableGrid n).nodeAt (x - 1) (y + 1) (z + 1),
       (allWalkableGrid n).nodeAt (x - 1) (y - 1) (z + 1),
       (allWalkableGrid n).nodeAt (x + 1) (y - 1) (z - 1),
       (allWalkableGrid n).nodeAt (x + 1) (y + 1) (z - 1),
       (allWalkableGrid n).nodeAt (x - 1) (y + 1) (z - 1),
       (allWalkableGrid n).nodeAt (x - 1) (y - 1) (z - 1)] := by
    rw [hnode]
    simp [Grid.neighbors, GridNode.make, edgeGate, cornerGate,
      w01, w02, w03, w04, w05, w06, w07, w08, w09, w10, w11, w12, w13,
      w14, w15, w16, w17, w18, w19, w20, w21, w22, w23, w24, w25, w26]
  have hN : (allWalkableGrid n).neighbors ((allWalkableGrid n).nodeAt x y z)
      DiagonalMovement.never =
      [(allWalkableGrid n).nodeAt x (y - 1) z, (allWalkableGrid n).nodeAt (x + 1) y z,
       (allWalkableGrid n).nodeAt x (y + 1) z, (allWalkableGrid n).nodeAt (x - 1) y z,
       (allWalkableGrid n).nodeAt x y (z + 1), (allWalkableGrid n).nodeAt x y (z - 1)] := by
    rw [hnode]
    simp [Grid.neighbors, GridNode.make, w01, w02, w03, w04, w05, w06]
  refine ⟨⟨?_, ?_⟩, ?_⟩
  · rw [hA]; rfl
  · rw [hA]
    apply List.Nodup.of_map (fun m : GridNode => (m.x - x, m.y - y, m.z - z))
    rw [nodeAt_allWalkable n x (y - 1) z (by omega),
      nodeAt_allWalkable n (x + 1) y z (by omega),
      nodeAt_allWalkable n x (y + 1) z (by omega),
      nodeAt_allWalkable n (x - 1) y z (by omega),
      nodeAt_allWalkable n x y (z + 1) (by omega),
      nodeAt_allWalkable n x y (z - 1) (by omega),
      nodeAt_allWalkable n (x + 1) (y - 1) z (by omega),
      nodeAt_allWalkable n (x + 1) (y + 1) z (by omega),
      nodeAt_allWalkable n (x - 1) (y + 1) z (by omega),
      nodeAt_allWalkable n (x - 1) (y - 1) z (by omega),
      nodeAt_allWalkable n x (y - 1) (z + 1) (by omega),
      nodeAt_allWalkable n (x + 1) y (z + 1) (by omega),
      nodeAt_allWalkable n x (y + 1) (z + 1) (by omega),
      nodeAt_allWalkable n (x - 1) y (z + 1) (by omega),
      nodeAt_allWalkable n x (y - 1) (z - 1) (by omega),
      nodeAt_allWalkable n (x + 1) y (z - 1) (by omega),
      nodeAt_allWalkable n x (y + 1) (z - 1) (by omega),
      nodeAt_allWalkable n (x - 1) y (z - 1) (by omega),
      nodeAt_allWalkable n (x + 1) (y - 1) (z + 1) (by omega),
      nodeAt_allWalkable n (x + 1) (y + 1) (z + 1) (by omega),
      nodeAt_allWalkable n (x - 1) (y + 1) (z + 1) (by omega),
      nodeAt_allWalkable n (x - 1) (y - 1) (z + 1) (by omega),
      nodeAt_allWalkable n (x + 1) (y - 1) (z - 1) (by omega),
      nodeAt_allWalkable n (x + 1) (y + 1) (z - 1) (by omega),
      nodeAt_allWalkable n (x - 1) (y + 1) (z - 1) (by omega),
      nodeAt_allWalkable n (x - 1) (y - 1) (z - 1) (by omega)]
    have hlist : ([GridNode.make x (y - 1) z true 1 none,
        GridNode.make (x + 1) y z true 1 none, GridNode.make x (y + 1) z true 1 none,
        GridNode.make (x - 1) y z true 1 none, GridNode.make x y (z + 1) true 1 none,
        GridNode.make x y (z - 1) true 1 none, GridNode.make (x + 1) (y - 1) z true 1 none,
        GridNode.make (x + 1) (y + 1) z true 1 none,
        GridNode.make (x - 1) (y + 1) z true 1 none,
        GridNode.make (x - 1) (y - 1) z true 1 none,
        GridNode.make x (y - 1) (z + 1) true 1 none,
        GridNode.make (x + 1) y (z + 1) true 1 none,
        GridNode.make x (y + 1) (z + 1) true 1 none,
        GridNode.make (x - 1) y (z + 1) true 1 none,
        GridNode.make x (y - 1) (z - 1) true 1 none,
        GridNode.make (x + 1) y (z - 1) true 1 none,
        GridNode.make x (y + 1) (z - 1) true 1 none,
        GridNode.make (x - 1) y (z - 1) true 1 none,
        GridNode.make (x + 1) (y - 1) (z + 1) true 1 none,
        GridNode.make (x + 1) (y + 1) (z + 1) true 1 none,
        GridNode.make (x - 1) (y + 1) (z + 1) true 1 none,
        GridNode.make (x - 1) (y - 1) (z + 1) true 1 none,
        GridNode.make (x + 1) (y - 1) (z - 1) true 1 none,
        GridNode.make (x + 1) (y + 1) (z - 1) true 1 none,
        GridNode.make (x - 1) (y + 1) (z - 1) true 1 none,
        GridNode.make (x - 1) (y - 1) (z - 1) true 1 none]).map
          (fun m : GridNode => (m.x - x, m.y - y, m.z - z)) =
        [((0 : ℤ), (-1 : ℤ), (0 : ℤ)), (1, 0, 0), (0, 1, 0), (-1, 0, 0), (0, 0, 1),
         (0, 0, -1), (1, -1, 0), (1, 1, 0), (-1, 1, 0), (-1, -1, 0), (0, -1, 1),
         (1, 0, 1), (0, 1, 1), (-1, 0, 1), (0, -1, -1), (1, 0, -1), (0, 1, -1),
         (-1, 0, -1), (1, -1, 1), (1, 1, 1), (-1, 1, 1), (-1, -1, 1), (1, -1, -1),
         (1, 1, -1), (-1, 1, -1), (-1, -1, -1)] := by
      simp [GridNode.make, add_sub_cancel_left, sub_sub_cancel_left, sub_self]
    rw [hlist]
    decide
  · rw [hN]
    rw [nodeAt_allWalkable n x (y - 1) z (by omega),
      nodeAt_allWalkable n (x + 1) y z (by omega),
      nodeAt_allWalkable n x (y + 1) z (by omega),
      nodeAt_allWalkable n (x - 1) y z (by omega),
      nodeAt_allWalkable n x y (z + 1) (by omega),
      nodeAt_allWalkable n x y (z - 1) (by omega)]
    simp [GridNode.make]

/-- Witness for C6 at the concrete grid `N = 3` and interior cell
`(1, 1, 1)`. -/
theorem neighbors_interior_witness :
    (((allWalkableGrid 3).neighbors ((allWalkableGrid 3).nodeAt 1 1 1)
        DiagonalMovement.always).length = 26 ∧
      ((allWalkableGrid 3).neighbors ((allWalkableGrid 3).nodeAt 1 1 1)
        DiagonalMovement.always).Nodup) ∧
    ((allWalkableGrid 3).neighbors ((allWalkableGrid 3).nodeAt 1 1 1)
        DiagonalMovement.never).map (fun m => (m.x, m.y, m.z)) =
      [(1, 0, 1), (2, 1, 1), (1, 2, 1), (0, 1, 1), (1, 1, 2), (1, 1, 0)] :=
  neighbors_interior 3 1 1 1 (by norm_num) (by norm_num) (by norm_num) (by norm_num)

/-! ## Dijkstra heuristic (`finder/dijkstra.py`, `core/heuristic.py`) -/

/-- `core/heuristic.py` `null`: the special heuristic for Dijkstra; its doc
string promises `node.h` will always be calculated as `0` so that `node.f`
equals `node.g`. -/
def null (dx dy dz : ℚ) : ℚ := 0

/-- `DijkstraFinder.apply_heuristic` (`finder/dijkstra.py` lines 43-63):
the override ignores both nodes and returns `1.0`. -/
def dijkstraApplyHeuristic (node_a node_b : GridNode) : ℚ := 1

/-- `DijkstraFinder.__init__` passes `heuristic=null` to `AStarFinder`. -/
def dijkstraInitHeuristic : ℚ → ℚ → ℚ → ℚ := null

/-- C3: the claim says `DijkstraFinder.apply_heuristic(a, b)` evaluates to
`0` for every pair of nodes so that `f = g`.  Evaluating the code: the
override returns `1.0` (never `0`) for all inputs, even though the `null`
heuristic the class installs in `__init__` does return `0`; with `h = 1`,
a relaxed node gets `f = g + 1 ≠ g`. -/
theorem dijkstra_apply_heuristic_eq_one (a b : GridNode) :
    dijkstraApplyHeuristic a b = 1 ∧ dijkstraApplyHeuristic a b ≠ 0 ∧
      (∀ dx dy dz : ℚ, dijkstraInitHeuristic dx dy dz = 0) ∧
      (∀ g : ℚ, g + dijkstraApplyHeuristic a b ≠ g) := by
  refine ⟨rfl, by norm_num [dijkstraApplyHeuristic], fun _ _ _ => rfl, fun g => ?_⟩
  simp [dijkstraApplyHeuristic]

/-- Witness for C3's theorem at concrete nodes. -/
theorem dijkstra_apply_heuristic_eq_one_witness :
    dijkstraApplyHeuristic (GridNode.make 0 0 0 true 1 none)
      (GridNode.make 1 2 3 true 1 none) = 1 :=
  (dijkstra_apply_heuristic_eq_one _ _).1

/-! ## Line rasterization (`core/util.py`)

`bresenham` and `raytrace` manipulate Python floats, but every value they
produce from integer voxel inputs is exact, so coordinates are embedded as
`ℤ` and the ray parameters as `ℚ`.  The `while` loops are embedded with a
fuel argument whose value at the top-level call equals the exact number of
loop iterations the source performs (the driving axis moves one step per
iteration toward its target; the ray crosses `|dx|+|dy|+|dz|` borders at
parameter `t ≤ 1`). -/

/-- X-driving-axis loop of `bresenham` (`core/util.py` lines 155-168).
Fuel counts the remaining driving-axis steps; both exits (fuel `0`, which
coincides with `x0 = x1` at the top-level fuel, and the `while` guard)
produce the final `line.append([x0, y0, z0])`. -/
def bresenhamLoopX (x1 sx sy sz dx dy dz : ℤ) :
    ℕ → ℤ → ℤ → ℤ → ℤ → ℤ → List (ℤ × ℤ × ℤ)
  | 0, x0, y0, z0, _, _ => [(x0, y0, z0)]
  | fuel + 1, x0, y0, z0, err1, err2 =>
    if x0 = x1 then [(x0, y0, z0)]
    else
      let y0' := if 0 < err1 then y0 + sy else y0
      let err1' := if 0 < err1 then err1 - 2 * dx else err1
      let z0' := if 0 < err2 then z0 + sz else z0
      let err2' := if 0 < err2 then err2 - 2 * dx else err2
      (x0, y0, z0) ::
        bresenhamLoopX x1 sx sy sz dx dy dz fuel (x0 + sx) y0' z0'
          (err1' + 2 * dy) (err2' + 2 * dz)

/-- Y-driving-axis loop of `bresenham` (`core/util.py` lines 170-183). -/
def bresenhamLoopY (y1 sx sy sz dx dy dz : ℤ) :
    ℕ → ℤ → ℤ → ℤ → ℤ → ℤ → List (ℤ × ℤ × ℤ)
  | 0, x0, y0, z0, _, _ => [(x0, y0, z0)]
  | fuel + 1, x0, y0, z0, err1, err2 =>
    if y0 = y1 then [(x0, y0, z0)]
    else
      let x0' := if 0 < err1 then x0 + sx else x0
      let err1' := if 0 < err1 then err1 - 2 * dy else err1
      let z0' := if 0 < err2 then z0 + sz else z0
      let err2' := if 0 < err2 then err2 - 2 * dy else err2
      (x0, y0, z0) ::
        bresenhamLoopY y1 sx sy sz dx dy dz fuel x0' (y0 + sy) z0'
          (err1' + 2 * dx) (err2' + 2 * dz)

/-- Z-driving-axis loop of `bresenham` (`core/util.py` lines 185-198). -/
def bresenhamLoopZ (z1 sx sy sz dx dy dz : ℤ) :
    ℕ → ℤ → ℤ → ℤ → ℤ → ℤ → List (ℤ × ℤ × ℤ)
  | 0, x0, y0, z0, _, _ => [(x0, y0, z0)]
  | fuel + 1, x0, y0, z0, err1, err2 =>
    if z0 = z1 then [(x0, y0, z0)]
    else
      let y0' := if 0 < err1 then y0 + sy else y0
      let err1' := if 0 < err1 then err1 - 2 * dz else err1
      let x0' := if 0 < err2 then x0 + sx else x0
      let err2' := if 0 < err2 then err2 - 2 * dz else err2
      (x0, y0, z0) ::
        bresenhamLoopZ z1 sx sy sz dx dy dz fuel x0' y0' (z0 + sz)
          (err1' + 2 * dy) (err2' + 2 * dx)

/-- `bresenham` (`core/util.py` lines 127-202): 3D Bresenham line from `a`
to `b`, choosing the driving axis with the largest absolute delta. -/
def bresenham (a b : ℤ × ℤ × ℤ) : List (ℤ × ℤ × ℤ) :=
  let (x0, y0, z0) := a
  let (x1, y1, z1) := b
  let dx := |x1 - x0|
  let dy := |y1 - y0|
  let dz := |z1 - z0|
  let sx : ℤ := if x0 < x1 then 1 else -1
  let sy : ℤ := if y0 < y1 then 1 else -1
  let sz : ℤ := if z0 < z1 then 1 else -1
  if dx ≥ dy ∧ dx ≥ dz then
    bresenhamLoopX x1 sx sy sz dx dy dz (x1 - x0).natAbs x0 y0 z0
      (2 * dy - dx) (2 * dz - dx)
  else if dy ≥ dx ∧ dy ≥ dz then
    bresenhamLoopY y1 sx sy sz dx dy dz (y1 - y0).natAbs x0 y0 z0
      (2 * dx - dy) (2 * dz - dy)
  else
    bresenhamLoopZ z1 sx sy sz dx dy dz (z1 - z0).natAbs x0 y0 z0
      (2 * dy - dz) (2 * dx - dz)

/-- Bresenham reproduces the vectors asserted by `test/test_util.py`
(`test_bresenham`), confirming the fuel-based embedding of the loops. -/
theorem bresenham_test_vectors :
    bresenham (0, 0, 0) (2, 5, 1) =
      [(0, 0, 0), (0, 1, 0), (1, 2, 0), (1, 3, 1), (2, 4, 1), (2, 5, 1)] ∧
    bresenham (0, 1, 4) (0, 4, 1) = [(0, 1, 4), (0, 2, 3), (0, 3, 2), (0, 4, 1)] := by
  decide

/-- One loop of `raytrace` (`core/util.py` lines 105-122): while `t ≤ 1`,
emit the current voxel, advance across the axis-aligned border reached
soonest (ties resolved in axis order `x`, `y`, `z`), stepping that axis'
coordinate and its next-border parameter. -/
def raytraceLoop (tf0 tf1 tf2 : ℚ) (s0 s1 s2 : ℤ) :
    ℕ → ℚ → ℚ → ℚ → ℚ → ℤ → ℤ → ℤ → List (ℤ × ℤ × ℤ)
  | 0, _, _, _, _, _, _, _ => []
  | fuel + 1, t, tnb0, tnb1, tnb2, p0, p1, p2 =>
    if t ≤ 1 then
      if tnb0 ≤ tnb1 ∧ tnb0 ≤ tnb2 then
        (p0, p1, p2) ::
          raytraceLoop tf0 tf1 tf2 s0 s1 s2 fuel tnb0 (tnb0 + tf0) tnb1 tnb2
            (p0 + s0) p1 p2
      else if tnb1 ≤ tnb2 ∧ tnb1 ≤ tnb0 then
        (p0, p1, p2) ::
          raytraceLoop tf0 tf1 tf2 s0 s1 s2 fuel tnb1 tnb0 (tnb1 + tf1) tnb2
            p0 (p1 + s1) p2
      else
        (p0, p1, p2) ::
          raytraceLoop tf0 tf1 tf2 s0 s1 s2 fuel tnb2 tnb0 tnb1 (tnb2 + tf2)
            p0 p1 (p2 + s2)
    else []

/-- `raytrace` (`core/util.py` lines 62-124): supercover DDA walk between
cell centers.  `t_for_one` is `|1/d|` (or the sentinel `1e10` for a zero
delta), `frac_start` is exactly `1/2` for integer cell centers, and the
fuel `|dx| + |dy| + |dz| + 1` is the exact number of iterations of the
`while t <= 1.0` loop. -/
def raytrace (a b : ℤ × ℤ × ℤ) : List (ℤ × ℤ × ℤ) :=
  let (x0, y0, z0) := a
  let (x1, y1, z1) := b
  let dx := x1 - x0
  let dy := y1 - y0
  let dz := z1 - z0
  let tf0 : ℚ := if dx ≠ 0 then |1 / (dx : ℚ)| else 10 ^ 10
  let tf1 : ℚ := if dy ≠ 0 then |1 / (dy : ℚ)| else 10 ^ 10
  let tf2 : ℚ := if dz ≠ 0 then |1 / (dz : ℚ)| else 10 ^ 10
  let frac : ℚ := 1 / 2
  let tnb0 : ℚ := if dx < 0 then (1 - frac) * tf0 else frac * tf0
  let tnb1 : ℚ := if dy < 0 then (1 - frac) * tf1 else frac * tf1
  let tnb2 : ℚ := if dz < 0 then (1 - frac) * tf2 else frac * tf2
  let s0 : ℤ := if 0 ≤ dx then 1 else -1
  let s1 : ℤ := if 0 ≤ dy then 1 else -1
  let s2 : ℤ := if 0 ≤ dz then 1 else -1
  raytraceLoop tf0 tf1 tf2 s0 s1 s2 (dx.natAbs + dy.natAbs + dz.natAbs + 1)
    0 tnb0 tnb1 tnb2 x0 y0 z0

/-- Raytrace reproduces the vectors asserted by `test/test_util.py`
(`test_raytrace`), confirming the fuel-based embedding of the loop. -/
theorem raytrace_test_vectors :
    raytrace (0, 0, 0) (2, 5, 1) =
      [(0, 0, 0), (0, 1, 0), (1, 1, 0), (1, 2, 0), (1, 3, 0), (1, 3, 1), (1, 4, 1),
       (2, 4, 1), (2, 5, 1)] ∧
    raytrace (0, 1, 4) (0, 4, 1) =
      [(0, 1, 4), (0, 2, 4), (0, 2, 3), (0, 3, 3), (0, 3, 2), (0, 4, 2), (0, 4, 1)] := by
  constructor <;> norm_num [raytrace, raytraceLoop, abs_of_nonneg, abs_of_nonpos]

/-! ## Path expansion (`core/util.py` `expand_path`) -/

/-- An element of the list built by `expand_path`.  The Python list is
heterogeneous: the loop appends individual coordinate triples produced by
`bresenham`, while the final `expanded += [path[:-1]]` appends one element
that is itself a *list* of coordinate triples. -/
inductive PathElem
  | coord (c : ℤ × ℤ × ℤ)
  | nested (l : List (ℤ × ℤ × ℤ))
  deriving DecidableEq, Repr

/-- `expand_path` (`core/util.py` lines 205-226): empty for inputs shorter
than two waypoints; otherwise the concatenation of
`bresenham(path[i], path[i+1])` over consecutive pairs, followed by the
single appended element `path[:-1]`. -/
def expand_path (path : List (ℤ × ℤ × ℤ)) : List PathElem :=
  if path.length < 2 then []
  else
    (((List.range (path.length - 1)).map fun i =>
        bresenham (path.getD i (0, 0, 0)) (path.getD (i + 1) (0, 0, 0))).flatten).map
        PathElem.coord ++
      [PathElem.nested path.dropLast]

/-- C7: the claim says `expand_path` returns exactly the interpolated
voxels from first to last waypoint with shared interior waypoints occurring
once.  Evaluating the code on the repository's own test inputs
(`test_util.py::test_expand_path`): for `[[0,0,0],[1,1,1]]` the result
carries a third, nested junk element `path[:-1]` (the test expects exactly
the two voxels), and for `[[0,0,0],[2,2,2],[4,2,2]]` the shared waypoint
`(2,2,2)` occurs twice among the emitted voxels besides the junk element. -/
theorem expand_path_junk_tail_and_duplicate_waypoint :
    expand_path [(0, 0, 0), (1, 1, 1)] =
      [PathElem.coord (0, 0, 0), PathElem.coord (1, 1, 1), PathElem.nested [(0, 0, 0)]] ∧
    expand_path [(0, 0, 0), (1, 1, 1)] ≠ [PathElem.coord (0, 0, 0), PathElem.coord (1, 1, 1)] ∧
    expand_path [(0, 0, 0), (2, 2, 2), (4, 2, 2)] =
      [PathElem.coord (0, 0, 0), PathElem.coord (1, 1, 1), PathElem.coord (2, 2, 2),
       PathElem.coord (2, 2, 2), PathElem.coord (3, 2, 2), PathElem.coord (4, 2, 2),
       PathElem.nested [(0, 0, 0), (2, 2, 2)]] ∧
    (expand_path [(0, 0, 0), (2, 2, 2), (4, 2, 2)]).count (PathElem.coord (2, 2, 2)) = 2 := by
  decide

/-! ## Line of sight (`core/util.py` / `finder/theta_star.py`) -/

/-- Modelled from the spec: `line_of_sight` is imported by
`finder/theta_star.py` and exercised by `test/test_util.py`, but its
definition is absent from `src/pathfinding3d/core/util.py`.  Spec §4.5:
true if `a == b`; otherwise walk the line between the nodes via `raytrace`
and return false if any intermediate voxel is not walkable.  Node equality
is modelled as identity of the node's cell (its `identifier`), and the
intermediate voxels are the raytrace line's voxels strictly between the
two endpoints. -/
def line_of_sight (grid : Grid) (node_a node_b : GridNode) : Bool :=
  if node_a.identifier = node_b.identifier then true
  else
    let line := raytrace (node_a.x, node_a.y, node_a.z) (node_b.x, node_b.y, node_b.z)
    ((line.drop 1).dropLast).all fun c => grid.walkable c.1 c.2.1 c.2.2

/-- The all-walkable 5×5×5 grid of the `test_util.py` line-of-sight
fixture. -/
def losGrid : Grid := Grid.make 5 5 5 none false none

/-- The same fixture with the single voxel `(2,2,2)` made non-walkable
(weight 0 in the construction matrix). -/
def losGridBlocked : Grid :=
  Grid.make 5 5 5 (some fun x y z => if x = 2 ∧ y = 2 ∧ z = 2 then 0 else 1) false none

/-- C8: `line_of_sight(grid, a, a)` is true for every grid and node; on the
all-walkable 5×5×5 grid the diagonal `(0,0,0) – (4,4,4)` has line of sight,
and making the single voxel `(2,2,2)` strictly between those endpoints
non-walkable turns the result false (the raytrace line passes through it). -/
theorem line_of_sight_reflexive_and_blocked :
    (∀ (g : Grid) (a : GridNode), line_of_sight g a a = true) ∧
    line_of_sight losGrid (GridNode.make 0 0 0 true 1 none)
      (GridNode.make 4 4 4 true 1 none) = true ∧
    line_of_sight losGridBlocked (GridNode.make 0 0 0 true 1 none)
      (GridNode.make 4 4 4 true 1 none) = false := by
  have hline : raytrace (0, 0, 0) (4, 4, 4) =
      [(0, 0, 0), (1, 0, 0), (1, 1, 0), (1, 1, 1), (2, 1, 1), (2, 2, 1), (2, 2, 2),
       (3, 2, 2), (3, 3, 2), (3, 3, 3), (4, 3, 3), (4, 4, 3), (4, 4, 4)] := by
    norm_num [raytrace, raytraceLoop, abs_of_nonneg, abs_of_nonpos]
  refine ⟨fun g a => by simp [line_of_sight], ?_, ?_⟩
  · show ((raytrace (0, 0, 0) (4, 4, 4)).drop 1).dropLast.all
      (fun c => losGrid.walkable c.1 c.2.1 c.2.2) = true
    rw [hline]
    decide
  · show ((raytrace (0, 0, 0) (4, 4, 4)).drop 1).dropLast.all
      (fun c => losGridBlocked.walkable c.1 c.2.1 c.2.2) = false
    rw [hline]
    decide

/-! ## World (`core/world.py`) and cleanup cascades -/

/-- A world (`core/world.py`): the registry from grid id to `Grid`,
modelled as an association list. -/
structure World where
  grids : List (ℤ × Grid)

/-- `self.grids[grid_id]` dictionary access. -/
def World.findGrid (w : World) (gid : ℤ) : Option Grid :=
  w.grids.lookup gid

/-- Modelled from the spec: `World.cleanup` is invoked by
`test/test_connect_grids.py` but absent from `src/pathfinding3d/core/world.py`.
Spec §3 Lifecycle: `Grid.cleanup()`/`World.cleanup()` cascade the node
reset over all owned nodes, so the world cleans every grid it owns. -/
def World.cleanup (w : World) : World :=
  { grids := w.grids.map fun p => (p.1, p.2.cleanup) }

/-- Cleaning a grid cleans exactly the node at every raw position (the
default node is invariant under `cleanup`, so this holds without a bounds
hypothesis). -/
theorem nodeAt_cleanup (g : Grid) (x y z : ℤ) :
    (g.cleanup).nodeAt x y z = GridNode.cleanup (g.nodeAt x y z) := by
  have h3 : ∀ (ys : List GridNode) (k : ℕ),
      (List.map GridNode.cleanup ys).getD k default =
        GridNode.cleanup (ys.getD k default) := by
    intro ys k
    have h : (List.map GridNode.cleanup ys).getD k (GridNode.cleanup default) =
        GridNode.cleanup (ys.getD k default) :=
      List.getD_map ys default GridNode.cleanup
    exact h
  have h2 : ∀ (xs : List (List GridNode)) (k : ℕ),
      (List.map (List.map GridNode.cleanup) xs).getD k [] =
        List.map GridNode.cleanup (xs.getD k []) := by
    intro xs k
    have h : (List.map (List.map GridNode.cleanup) xs).getD k
          (List.map GridNode.cleanup []) =
        List.map GridNode.cleanup (xs.getD k []) :=
      List.getD_map xs [] (List.map GridNode.cleanup)
    exact h
  have h1 : ∀ (ns : List (List (List GridNode))) (k : ℕ),
      (List.map (List.map (List.map GridNode.cleanup)) ns).getD k [] =
        List.map (List.map GridNode.cleanup) (ns.getD k []) := by
    intro ns k
    have h : (List.map (List.map (List.map GridNode.cleanup)) ns).getD k
          (List.map (List.map GridNode.cleanup) []) =
        List.map (List.map GridNode.cleanup) (ns.getD k []) :=
      List.getD_map ns [] (List.map (List.map GridNode.cleanup))
    exact h
  show ((((List.map (List.map (List.map GridNode.cleanup)) g.nodes).getD
      x.toNat []).getD y.toNat []).getD z.toNat default) = _
  rw [h1, h2, h3]
  rfl

/-- `Grid.cleanup` commutes with the position accessor `Grid.node`. -/
theorem node?_cleanup (g : Grid) (x y z : ℤ) :
    (g.cleanup).node? x y z = (g.node? x y z).map GridNode.cleanup := by
  have hinside : (g.cleanup).inside x y z = g.inside x y z := rfl
  show (if (g.cleanup).inside x y z then some ((g.cleanup).nodeAt x y z) else none) = _
  rw [hinside, nodeAt_cleanup]
  by_cases h : g.inside x y z
  · simp [Grid.node?, h]
  · simp [Grid.node?, h]

/-- C9: `Node.cleanup` resets `g, h, f, opened, closed, parent,
retain_count, tested` to `0, 0, 0, 0, False, None, 0, False`;
`Grid.cleanup` applies the node reset at every position, and
`World.cleanup` applies the grid cascade to every owned grid. -/
theorem cleanup_resets_search_state :
    (∀ n : GridNode,
      (GridNode.cleanup n).g = 0 ∧ (GridNode.cleanup n).h = 0 ∧
      (GridNode.cleanup n).f = 0 ∧ (GridNode.cleanup n).opened = 0 ∧
      (GridNode.cleanup n).closed = false ∧ (GridNode.cleanup n).parent = none ∧
      (GridNode.cleanup n).retain_count = 0 ∧ (GridNode.cleanup n).tested = false) ∧
    (∀ (g : Grid) (x y z : ℤ),
      (g.cleanup).node? x y z = (g.node? x y z).map GridNode.cleanup) ∧
    (∀ (w : World) (gid : ℤ),
      (w.cleanup).findGrid gid = (w.findGrid gid).map Grid.cleanup) := by
  refine ⟨fun n => ⟨rfl, rfl, rfl, rfl, rfl, rfl, rfl, rfl⟩,
    fun g x y z => node?_cleanup g x y z, fun w gid => ?_⟩
  · show List.lookup gid (w.grids.map fun p => (p.1, p.2.cleanup)) =
      (List.lookup gid w.grids).map Grid.cleanup
    induction w.grids with
    | nil => rfl
    | cons p t ih =>
      by_cases h : gid = p.1
      · simp [List.lookup, h]
      · have hb : (gid == p.1) = false := by simpa using h
        simp only [List.map_cons, List.lookup, hb]
        exact ih

/-- The shape of a grid's node array: the lengths of all nested lists. -/
def gridShape (g : Grid) : ℕ × List (List ℕ) :=
  (g.nodes.length, g.nodes.map fun xs => (xs.map List.length))

/-- C10: `Grid.cleanup` changes only search state — every node keeps its
`x, y, z, walkable, weight, grid_id, connections` and `identifier`, and the
grid keeps its `width`, `height`, `depth` and the shape of its node
array. -/
theorem grid_cleanup_frame (g : Grid) (x y z : ℤ) (n : GridNode)
    (hmem : g.node? x y z = some n) :
    ∃ n', (g.cleanup).node? x y z = some n' ∧
      n'.x = n.x ∧ n'.y = n.y ∧ n'.z = n.z ∧ n'.walkable = n.walkable ∧
      n'.weight = n.weight ∧ n'.grid_id = n.grid_id ∧
      n'.connections = n.connections ∧ n'.identifier = n.identifier ∧
      (g.cleanup).width = g.width ∧ (g.cleanup).height = g.height ∧
      (g.cleanup).depth = g.depth ∧ gridShape (g.cleanup) = gridShape g := by
  refine ⟨GridNode.cleanup n, ?_, rfl, rfl, rfl, rfl, rfl, rfl, rfl, rfl, rfl, rfl, rfl, ?_⟩
  · rw [node?_cleanup g x y z, hmem]
    rfl
  · show (_, (g.nodes.map _).map _) = _
    simp [gridShape, Grid.cleanup, List.map_map, Function.comp]

/-- Witness for C10 on a concrete grid and node. -/
theorem grid_cleanup_frame_witness :
    ∃ n', ((allWalkableGrid 2).cleanup).node? 0 1 1 = some n' ∧
      n'.x = (GridNode.make 0 1 1 true 1 none).x ∧
      n'.y = (GridNode.make 0 1 1 true 1 none).y ∧
      n'.z = (GridNode.make 0 1 1 true 1 none).z ∧
      n'.walkable = (GridNode.make 0 1 1 true 1 none).walkable ∧
      n'.weight = (GridNode.make 0 1 1 true 1 none).weight ∧
      n'.grid_id = (GridNode.make 0 1 1 true 1 none).grid_id ∧
      n'.connections = (GridNode.make 0 1 1 true 1 none).connections ∧
      n'.identifier = (GridNode.make 0 1 1 true 1 none).identifier ∧
      ((allWalkableGrid 2).cleanup).width = (allWalkableGrid 2).width ∧
      ((allWalkableGrid 2).cleanup).height = (allWalkableGrid 2).height ∧
      ((allWalkableGrid 2).cleanup).depth = (allWalkableGrid 2).depth ∧
      gridShape ((allWalkableGrid 2).cleanup) = gridShape (allWalkableGrid 2) :=
  grid_cleanup_frame (allWalkableGrid 2) 0 1 1 (GridNode.make 0 1 1 true 1 none) (by rfl)

/-! ## Finder budget checks and the search loop (`finder/finder.py`)

`find_path` mutates grid nodes through `check_neighbors`; the loop itself
only observes whether the open list is nonempty, whether an expansion step
produced a path, and the wall clock.  We embed the loop over an abstract
world-state type `W` with those observations supplied as functions, the
wall clock as a rational-valued reading, and the raised exceptions as an
`Except` error result carrying the `self.runs` counter at the moment of
the raise. -/

/-- The two budget failures of `finder/finder.py`:
`ExecutionRunsException` and `ExecutionTimeException`, as distinct
constructors. -/
inductive FinderError
  | runsExceeded
  | timeExceeded
  deriving DecidableEq, Repr

/-- `Finder.keep_running` (lines 128-148): raise the run-count-exceeded
failure when `self.runs >= self.max_runs`, else the time-exceeded failure
when `time.time() - self.start_time >= self.time_limit`.  The defaults
`float("inf")` for both budgets are modelled by `⊤`. -/
def keepRunning (runs : ℕ) (maxRuns : WithTop ℕ) (elapsed : ℚ)
    (timeLimit : WithTop ℚ) : Option FinderError :=
  if maxRuns ≤ (runs : WithTop ℕ) then some .runsExceeded
  else if timeLimit ≤ (elapsed : WithTop ℚ) then some .timeExceeded
  else none

/-- What one `find_path` run observes of the mutable search state:
`checkNeighbors` performs one expansion step, returning the optional path
together with the successor state; `openNonempty` is the
`len(open_list) > 0` loop guard; `now` is the wall-clock reading. -/
structure FinderEnv (W : Type) (P : Type) where
  checkNeighbors : W → Option (List P) × W
  openNonempty : W → Bool
  now : W → ℚ

/-- The `while` loop of `Finder.find_path` (lines 258-267): while the open
list is nonempty, increment the run counter, run `keep_running` (an error
aborts the search with no path), perform one `check_neighbors` step and
return its path if truthy (Python's `if path:` treats the empty list like
`None`).  An exhausted frontier returns the empty path with the run count.
Fuel bounds the number of iterations; every run with a finite `max_runs`
budget `N` is settled within `N` iterations. -/
def findPathLoop (env : FinderEnv W P) (t0 : ℚ) (maxRuns : WithTop ℕ)
    (timeLimit : WithTop ℚ) :
    ℕ → ℕ → W → Option (Except (FinderError × ℕ) (List P × ℕ))
  | 0, _, _ => none
  | fuel + 1, runs, w =>
    if env.openNonempty w then
      match keepRunning (runs + 1) maxRuns (env.now w - t0) timeLimit with
      | some e => some (.error (e, runs + 1))
      | none =>
        match env.checkNeighbors w with
        | (some path, w') =>
          if path.isEmpty then findPathLoop env t0 maxRuns timeLimit fuel (runs + 1) w'
          else some (.ok (path, runs + 1))
        | (none, w') => findPathLoop env t0 maxRuns timeLimit fuel (runs + 1) w'
    else some (.ok ([], runs))

/-- `Finder.find_path` (lines 232-267): record the start time, zero the run
counter, and enter the loop. -/
def findPath (env : FinderEnv W P) (maxRuns : WithTop ℕ) (timeLimit : WithTop ℚ)
    (fuel : ℕ) (w : W) : Option (Except (FinderError × ℕ) (List P × ℕ)) :=
  findPathLoop env (env.now w) maxRuns timeLimit fuel 0 w

/-- If the loop aborts with a budget failure and entered with fewer than
`N` runs consumed, the reported run counter never exceeds the finite
budget `N` (for either failure kind). -/
theorem findPathLoop_error_runs_le (env : FinderEnv W P) (t0 : ℚ) (N : ℕ)
    (timeLimit : WithTop ℚ) :
    ∀ (fuel runs : ℕ) (w : W) (e : FinderError) (r : ℕ),
      runs < N →
      findPathLoop env t0 (N : WithTop ℕ) timeLimit fuel runs w =
        some (.error (e, r)) →
      r ≤ N := by
  intro fuel
  induction fuel with
  | zero =>
    intro runs w e r _ h
    simp [findPathLoop] at h
  | succ fuel ih =>
    intro runs w e r hlt h
    rw [findPathLoop] at h
    split at h
    · split at h
      · rename_i e' hkr
        have : r = runs + 1 := by
          simp only [Option.some.injEq, Except.error.injEq, Prod.mk.injEq] at h
          exact h.2.symm
        omega
      · rename_i hkr
        have hlt' : runs + 1 < N := by
          by_contra hge
          have hge' : N ≤ runs + 1 := by omega
          have hcast : (N : WithTop ℕ) ≤ (runs : WithTop ℕ) + 1 := by
            exact_mod_cast hge'
          simp [keepRunning, hcast] at hkr
        split at h
        · rename_i path w' hcn
          split at h
          · exact ih (runs + 1) w' e r hlt' h
          · simp at h
        · rename_i w' hcn
          exact ih (runs + 1) w' e r hlt' h
    · simp at h

/-- With no time budget and a frontier that stays nonempty while no path is
found, a run entering the loop below the finite budget `N` ends in the
run-count failure with the counter exactly at `N`. -/
theorem findPathLoop_runs_exceeded (env : FinderEnv W P) (t0 : ℚ) (N : ℕ)
    (hopen : ∀ w', env.openNonempty w' = true)
    (hnopath : ∀ w', (env.checkNeighbors w').1 = none) :
    ∀ (fuel runs : ℕ) (w : W), runs < N → N ≤ fuel + runs →
      findPathLoop env t0 (N : WithTop ℕ) ⊤ fuel runs w =
        some (.error (FinderError.runsExceeded, N)) := by
  intro fuel
  induction fuel with
  | zero =>
    intro runs w hlt hle
    omega
  | succ fuel ih =>
    intro runs w hlt hle
    rw [findPathLoop, if_pos (hopen w)]
    by_cases hend : N ≤ runs + 1
    · have hN : N = runs + 1 := by omega
      have hcast : (N : WithTop ℕ) ≤ ((runs + 1 : ℕ) : WithTop ℕ) := by
        exact_mod_cast hend
      simp [keepRunning, hcast, hN]
    · have hcast : ¬((N : WithTop ℕ) ≤ ((runs + 1 : ℕ) : WithTop ℕ)) := by
        intro hc
        exact hend (by exact_mod_cast hc)
      have htime : ¬((⊤ : WithTop ℚ) ≤ ((env.now w - t0 : ℚ) : WithTop ℚ)) := by
        simp
      rw [keepRunning, if_neg hcast, if_neg htime]
      have hcn := hnopath w
      cases hcnp : env.checkNeighbors w with
      | mk path? w' =>
        rw [hcnp] at hcn
        simp only at hcn
        subst hcn
        exact ih (runs + 1) w' (by omega) (by omega)

/-- C5: with a finite iteration budget `max_runs = N ≥ 1`, a search whose
frontier never empties and never finds a path fails with the run-count
failure (`ExecutionRunsException`), a constructor distinct from the
time-exceeded failure; the error result carries no path, only the failure
kind and the run counter; and for either failure kind, under any time
limit, the run counter reported at the failure never exceeds `N`. -/
theorem findPath_budget_failures (env : FinderEnv W P) (N fuel : ℕ) (w : W)
    (hN : 1 ≤ N) (hfuel : N ≤ fuel)
    (hopen : ∀ w', env.openNonempty w' = true)
    (hnopath : ∀ w', (env.checkNeighbors w').1 = none) :
    findPath env (N : WithTop ℕ) ⊤ fuel w =
      some (.error (FinderError.runsExceeded, N)) ∧
    FinderError.runsExceeded ≠ FinderError.timeExceeded ∧
    (∀ (tl : WithTop ℚ) (fuel' : ℕ) (w' : W) (e : FinderError) (r : ℕ),
      findPath env (N : WithTop ℕ) tl fuel' w' = some (.error (e, r)) → r ≤ N) := by
  refine ⟨?_, by decide, ?_⟩
  · exact findPathLoop_runs_exceeded env (env.now w) N hopen hnopath fuel 0 w
      (by omega) (by omega)
  · intro tl fuel' w' e r h
    exact findPathLoop_error_runs_le env (env.now w') N tl fuel' 0 w' e r
      (by omega) h

/-- A trivial environment whose frontier never empties and never yields a
path. -/
def unitFinderEnv : FinderEnv Unit Unit :=
  { checkNeighbors := fun _ => (none, ())
    openNonempty := fun _ => true
    now := fun _ => 0 }

/-- Witness for C5 at the concrete budget `N = 2`. -/
theorem findPath_budget_failures_witness :
    findPath unitFinderEnv ((2 : ℕ) : WithTop ℕ) ⊤ 2 () =
      some (.error (FinderError.runsExceeded, 2)) ∧
    FinderError.runsExceeded ≠ FinderError.timeExceeded ∧
    (∀ (tl : WithTop ℚ) (fuel' : ℕ) (w' : Unit) (e : FinderError) (r : ℕ),
      findPath unitFinderEnv ((2 : ℕ) : WithTop ℕ) tl fuel' w' =
        some (.error (e, r)) → r ≤ 2) :=
  findPath_budget_failures unitFinderEnv 2 2 () (by norm_num) (by norm_num)
    (fun _ => rfl) (fun _ => rfl)

/-! ## Parent links form a tree (`finder/finder.py` `process_node`,
`core/util.py` `backtrace`)

Every finder mutates the per-node `closed`/`parent` state in only two
ways.  In `check_neighbors` (A*, Bi-A*, MST, BreadthFirst) the popped node
is marked `closed = True` before its neighbors are relaxed, and
`process_node` assigns `candidate.parent = currentNode` only for
candidates that are not closed (closed neighbors are skipped) — so the
assigned parent is always an already-closed node.  Theta*'s grandparent
shortcut assigns `candidate.parent = parent.parent`, and the parent of a
closed node is itself closed.  We model a run as a transition system over
the closed-order sequence and the parent map, and prove that from the
cleaned initial state every reachable parent map is well-founded: the
`backtrace` loop terminates and returns the root-to-node path. -/

/-- Abstract per-run search state: the nodes closed so far in closing
order, and the parent back-references (modelled as node keys). -/
structure SearchState (ι : Type) where
  closedSeq : List ι
  parent : ι → Option ι

/-- The cleaned initial state of a `find_path` run: nothing closed, every
`parent` reset to `None` by `cleanup`. -/
def searchInit (ι : Type) : SearchState ι :=
  ⟨[], fun _ => none⟩

/-- The two mutations the finder family performs on closed/parent state:

* `close` — `check_neighbors` pops a not-yet-closed node and sets
  `node.closed = True` (`finder/a_star.py` line 85, `finder/msp.py` line
  73, `finder/breadth_first.py` line 78);
* `relax` — `process_node` sets `candidate.parent` to an already-closed
  node for a not-closed candidate (`finder/finder.py` lines 184-199 with
  the closed-neighbor skip at `finder/a_star.py` lines 96-98; Theta*'s
  grandparent and BreadthFirst's direct assignment satisfy the same
  precondition). -/
inductive SearchStep {ι : Type} [DecidableEq ι] : SearchState ι → SearchState ι → Prop
  | close (s : SearchState ι) (n : ι) (hn : n ∉ s.closedSeq) :
      SearchStep s ⟨s.closedSeq ++ [n], s.parent⟩
  | relax (s : SearchState ι) (c p : ι) (hp : p ∈ s.closedSeq)
      (hc : c ∉ s.closedSeq) :
      SearchStep s ⟨s.closedSeq, Function.update s.parent c (some p)⟩

/-- States reachable within one `find_path` run started on cleaned
nodes. -/
def SearchReachable {ι : Type} [DecidableEq ι] (s : SearchState ι) : Prop :=
  Relation.ReflTransGen SearchStep (searchInit ι) s

/-- The run invariant: every recorded parent is a closed node, and parents
of closed nodes were closed strictly earlier. -/
def ParentInv [DecidableEq ι] (s : SearchState ι) : Prop :=
  ∀ n p, s.parent n = some p → p ∈ s.closedSeq ∧
    (n ∈ s.closedSeq → s.closedSeq.indexOf p < s.closedSeq.indexOf n)

theorem parentInv_init [DecidableEq ι] : ParentInv (searchInit ι) := by
  intro n p h
  simp [searchInit] at h

theorem parentInv_step [DecidableEq ι] {s s' : SearchState ι}
    (h : SearchStep s s') (hs : ParentInv s) : ParentInv s' := by
  cases h with
  | close n hn =>
    intro m p hmp
    dsimp only at hmp ⊢
    obtain ⟨hp, hord⟩ := hs m p hmp
    refine ⟨List.mem_append_left _ hp, ?_⟩
    intro hm
    rw [List.indexOf_append_of_mem hp]
    rcases List.mem_append.mp hm with hm' | hm'
    · rw [List.indexOf_append_of_mem hm']
      exact hord hm'
    · have hmn : m = n := by simpa using hm'
      subst hmn
      rw [List.indexOf_append_of_not_mem hn]
      have hplen : s.closedSeq.indexOf p < s.closedSeq.length :=
        List.indexOf_lt_length.mpr hp
      omega
  | relax c p hp hc =>
    intro m q hmq
    dsimp only at hmq ⊢
    by_cases hmc : m = c
    · subst hmc
      rw [Function.update_same] at hmq
      obtain rfl : q = p := by simpa using hmq.symm
      exact ⟨hp, fun hm => absurd hm hc⟩
    · rw [Function.update_noteq hmc] at hmq
      exact hs m q hmq

theorem parentInv_reachable [DecidableEq ι] (s : SearchState ι)
    (h : SearchReachable s) : ParentInv s := by
  induction h with
  | refl => exact parentInv_init
  | tail _ hstep ih => exact parentInv_step hstep ih

/-- The closing-time measure: closed nodes are measured by their position
in the closing order, unclosed ones after all closed ones. -/
def closeMeasure [DecidableEq ι] (s : SearchState ι) (n : ι) : ℕ :=
  if n ∈ s.closedSeq then s.closedSeq.indexOf n + 1 else s.closedSeq.length + 1

theorem closeMeasure_lt_of_parent [DecidableEq ι] {s : SearchState ι}
    (hinv : ParentInv s) {n p : ι} (hp : s.parent n = some p) :
    closeMeasure s p < closeMeasure s n := by
  obtain ⟨hpc, hord⟩ := hinv n p hp
  unfold closeMeasure
  rw [if_pos hpc]
  by_cases hn : n ∈ s.closedSeq
  · rw [if_pos hn]
    exact Nat.succ_lt_succ (hord hn)
  · rw [if_neg hn]
    have := List.indexOf_lt_length.mpr hpc
    omega

theorem closeMeasure_le [DecidableEq ι] (s : SearchState ι) (n : ι) :
    closeMeasure s n ≤ s.closedSeq.length + 1 := by
  unfold closeMeasure
  split
  · have := List.indexOf_lt_length.mpr (by assumption : n ∈ s.closedSeq)
    omega
  · exact le_refl _

/-- The loop of `backtrace` (`core/util.py` lines 16-36) with the parent
map explicit and a fuel bound on the `while node.parent` loop; the
accumulator plays the role of the final `path.reverse()`, so a successful
result is ordered root → node. -/
def backtraceAux (parent : ι → Option ι) : ℕ → ι → List ι → Option (List ι)
  | 0, _, _ => none
  | fuel + 1, n, acc =>
    match parent n with
    | none => some (n :: acc)
    | some p => backtraceAux parent fuel p (n :: acc)

/-- `backtrace(node)`: follow parent links, collect, reverse. -/
def backtrace (parent : ι → Option ι) (fuel : ℕ) (n : ι) : Option (List ι) :=
  backtraceAux parent fuel n []

theorem backtraceAux_append (parent : ι → Option ι) :
    ∀ (fuel : ℕ) (n : ι) (acc : List ι),
      backtraceAux parent fuel n acc =
        (backtraceAux parent fuel n []).map (· ++ acc) := by
  intro fuel
  induction fuel with
  | zero => intro n acc; rfl
  | succ fuel ih =>
    intro n acc
    cases hp : parent n with
    | none => simp [backtraceAux, hp]
    | some p =>
      simp only [backtraceAux, hp]
      rw [ih p (n :: acc), ih p [n]]
      cases backtraceAux parent fuel p [] <;> simp

/-- Whenever the parent relation strictly decreases a measure, `backtrace`
with enough fuel succeeds and returns a parent-linked path from a
parent-less root to the queried node. -/
theorem backtrace_total (parent : ι → Option ι) (μ : ι → ℕ)
    (hμ : ∀ n p, parent n = some p → μ p < μ n) :
    ∀ (fuel : ℕ) (n : ι), μ n < fuel →
      ∃ (l : List ι) (r : ι),
        backtrace parent fuel n = some l ∧ l.head? = some r ∧ parent r = none ∧
          l.getLast? = some n ∧ l.Chain' (fun a b => parent b = some a) := by
  intro fuel
  induction fuel with
  | zero => intro n h; omega
  | succ fuel ih =>
    intro n hfuel
    cases hp : parent n with
    | none =>
      refine ⟨[n], n, ?_, rfl, hp, rfl, ?_⟩
      · show backtraceAux parent (fuel + 1) n [] = some [n]
        simp [backtraceAux, hp]
      · simp
    | some p =>
      have hμp : μ p < fuel := by
        have := hμ n p hp
        omega
      obtain ⟨l, r, hbt, hhead, hroot, hlast, hchain⟩ := ih p hμp
      have hlne : l ≠ [] := by
        intro hnil
        rw [hnil] at hhead
        simp at hhead
      refine ⟨l ++ [n], r, ?_, ?_, hroot, ?_, ?_⟩
      · show backtraceAux parent (fuel + 1) n [] = some (l ++ [n])
        simp only [backtraceAux, hp]
        rw [backtraceAux_append parent fuel p [n]]
        rw [show backtraceAux parent fuel p [] = some l from hbt]
        rfl
      · rw [List.head?_append_of_ne_nil l hlne]
        exact hhead
      · exact List.getLast?_concat l
      · rw [List.chain'_append]
        refine ⟨hchain, List.chain'_singleton n, ?_⟩
        intro a ha b hb
        rw [hlast] at ha
        obtain rfl : p = a := by simpa using ha
        obtain rfl : n = b := by simpa using hb
        exact hp

/-- C4: in every state reachable by close/relax steps within one
`find_path` run started on cleaned nodes, following parent links from any
node reaches a parent-less root in finitely many steps: `backtrace` with
fuel `|closedSeq| + 2` succeeds and returns a parent-linked root-to-node
path, so the parent references are never cyclic. -/
theorem backtrace_terminates_on_reachable [DecidableEq ι] (s : SearchState ι)
    (hs : SearchReachable s) (n : ι) :
    ∃ (l : List ι) (r : ι),
      backtrace s.parent (s.closedSeq.length + 2) n = some l ∧
        l.head? = some r ∧ s.parent r = none ∧ l.getLast? = some n ∧
        l.Chain' (fun a b => s.parent b = some a) := by
  have hinv := parentInv_reachable s hs
  refine backtrace_total s.parent (closeMeasure s)
    (fun m q hq => closeMeasure_lt_of_parent hinv hq) _ n ?_
  have := closeMeasure_le s n
  omega

/-- A small reachable state: node `0` closed, then node `1` relaxed with
parent `0`. -/
def demoState : SearchState ℕ :=
  ⟨[0], Function.update (fun _ => none) 1 (some 0)⟩

theorem demoState_reachable : SearchReachable demoState := by
  have h1 : SearchStep (searchInit ℕ) ⟨[0], fun _ => none⟩ := by
    have h := SearchStep.close (searchInit ℕ) 0 (by simp [searchInit])
    simpa [searchInit] using h
  have h2 : SearchStep (⟨[0], fun _ => none⟩ : SearchState ℕ) demoState := by
    have h := SearchStep.relax (⟨[0], fun _ => none⟩ : SearchState ℕ) 1 0
      (by simp) (by simp)
    simpa [demoState] using h
  exact Relation.ReflTransGen.tail (Relation.ReflTransGen.single h1) h2

/-- Witness for C4 at the concrete reachable state `demoState` and node
`1`. -/
theorem backtrace_terminates_on_reachable_witness :
    ∃ (l : List ℕ) (r : ℕ),
      backtrace demoState.parent (demoState.closedSeq.length + 2) 1 = some l ∧
        l.head? = some r ∧ demoState.parent r = none ∧ l.getLast? = some 1 ∧
        l.Chain' (fun a b => demoState.parent b = some a) :=
  backtrace_terminates_on_reachable demoState demoState_reachable 1

end Pathfinding3D
